import Mathlib

/-!
Shallow embedding of `src/program/visualize-convergence/visualize_convergence.py`
(a curses dashboard that tails a log file written by an optimisation process).

Energies are modelled as exact rationals (`ℚ`); the Python code holds them as
the numeric values parsed out of each log line.  Fallible Python code (raised
exceptions) is modelled with `Except Unit`.
-/

/-- Python's builtin `min` on a list.  The call sites in the source only apply
it to non-empty lists (they are guarded by `if log:` or `len(log) < 1`
checks); Python raises on `min([])`, the `0` default here is unreachable at
those call sites. -/
def pymin : List ℚ → ℚ
  | [] => 0
  | x :: xs => xs.foldl min x

/-- Python's builtin `max` on a list, same conventions as `pymin`. -/
def pymax : List ℚ → ℚ
  | [] => 0
  | x :: xs => xs.foldl max x

namespace DataSource

/-- One line read from the log file, as classified by `DataSource.run`
(`visualize_convergence.py`, lines 57-62):
* `obs e`   — a line starting with `'\x7b'` that `literal_eval` parses to a
  mapping holding a numeric `"energy"` value `e`;
* `badObs`  — a line starting with `'\x7b'` on which `literal_eval` or the
  `d["energy"]` lookup raises;
* `marker`  — a line starting with `'#'`;
* `other`   — any other non-empty line (ignored by the loop). -/
inductive Line where
  | obs (energy : ℚ)
  | badObs
  | marker
  | other
deriving DecidableEq

/-- `self.logs[-1].append(e)` (line 59): append a value to the last run.
Python raises `IndexError` on an empty list; the run list is initialised to
`[[]]` on open, so the `[]` case is unreachable. -/
def appendLast : List (List ℚ) → ℚ → List (List ℚ)
  | [], _ => []
  | [l], e => [l ++ [e]]
  | l :: l2 :: ls, e => l :: appendLast (l2 :: ls) e

/-- Effect of one successfully read line on the run list
(`visualize_convergence.py`, lines 57-61).  A `badObs` line makes
`literal_eval` (or the `"energy"` key lookup) raise; there is no handler in
`DataSource.run`, so the exception propagates (`Except.error`). -/
def processLine (logs : List (List ℚ)) : Line → Except Unit (List (List ℚ))
  | Line.obs e => Except.ok (appendLast logs e)
  | Line.badObs => Except.error ()
  | Line.marker => Except.ok (logs ++ [[]])
  | Line.other => Except.ok logs

/-- Run-list evolution over a sequence of consecutive lines read by the
tailer loop (one line per loop iteration), propagating a raised exception. -/
def processLines (logs : List (List ℚ)) : List Line → Except Unit (List (List ℚ))
  | [] => Except.ok logs
  | l :: ls =>
    match processLine logs l with
    | Except.ok logs2 => processLines logs2 ls
    | Except.error e => Except.error e

/-- The tailer's mutable state: `self.file` (here just whether a handle is
open) and `self.logs` (`none` is Python's `None`, before the first open). -/
structure TailerState where
  fileOpen : Bool
  logs : Option (List (List ℚ))
deriving DecidableEq

/-- What the environment presents to one iteration of the tailer loop:
`unlinked` = `os.fstat(...).st_nlink == 0` with an open handle; `eof` =
`readline()` returned `''`; `line l` = `readline()` returned a line; the
`open*` observations are the outcome of the `open(self.fname)` attempt when
no handle is held. -/
inductive Obs where
  | unlinked
  | eof
  | line (l : Line)
  | openSuccess
  | openFailure
deriving DecidableEq

/-- One iteration of the `while self.running` loop of `DataSource.run`
(`visualize_convergence.py`, lines 46-68).  Observations that cannot occur in
the given state (e.g. `openSuccess` while a handle is held) are modelled as
no-ops; the loop never generates them. -/
def step (s : TailerState) (o : Obs) : Except Unit TailerState :=
  if s.fileOpen then
    match o with
    | Obs.unlinked => Except.ok (TailerState.mk false s.logs)
    | Obs.eof => Except.ok s
    | Obs.line l =>
      match s.logs with
      | none => Except.error ()
      | some lg => (processLine lg l).map (fun lg2 => TailerState.mk true (some lg2))
    | _ => Except.ok s
  else
    match o with
    | Obs.openSuccess => Except.ok (TailerState.mk true (some [[]]))
    | Obs.openFailure => Except.ok s
    | _ => Except.ok s

/-- Milliseconds slept by one loop iteration: `time.sleep(0.1)` runs on the
`''`-read branch (line 56) and on the `FileNotFoundError` branch (line 68);
every other branch does not sleep. -/
def iterSleepMs (s : TailerState) (o : Obs) : ℕ :=
  if s.fileOpen then
    match o with
    | Obs.eof => 100
    | _ => 0
  else
    match o with
    | Obs.openFailure => 100
    | _ => 0

/-- All sample values currently held in the tailer's run list, in order. -/
def samples (s : TailerState) : List ℚ :=
  (s.logs.getD []).flatten

end DataSource

/-- Spec-side definition of run segmentation, following the spec's words
("for any sequence of lines containing k marker lines, the resulting Run List
has exactly k+1 Runs ..., each containing, in order, the energy values of
observation lines that followed it and preceded the next marker"): the head
is the current (first) run's remaining values, each marker closes the current
run and opens a new one.  A malformed line is skipped, per the spec's
recommended policy.  Declared for comparison against `DataSource.processLines`. -/
def splitRunsSpec : List DataSource.Line → List (List ℚ)
  | [] => [[]]
  | DataSource.Line.obs e :: rest =>
    (e :: (splitRunsSpec rest).headI) :: (splitRunsSpec rest).tail
  | DataSource.Line.badObs :: rest => splitRunsSpec rest
  | DataSource.Line.marker :: rest => [] :: splitRunsSpec rest
  | DataSource.Line.other :: rest => splitRunsSpec rest

/-- Proof-infrastructure merge of a run list accumulated so far with a
segmentation of the remaining lines: the first remaining segment extends the
last accumulated run, later segments are appended as-is. -/
def mergeRuns : List (List ℚ) → List (List ℚ) → List (List ℚ)
  | [], rs => rs
  | [l], [] => [l]
  | [l], r :: rs => (l ++ r) :: rs
  | l :: l2 :: ls, rs => l :: mergeRuns (l2 :: ls) rs

namespace CURSESDisplay

/-- The `min_` accumulation of `draw_stats` (`visualize_convergence.py`,
lines 114-117): seeded with `0`, then `min_ = min(min_, min(log))` for every
non-empty run, the in-progress one included. -/
def statsMin (logs : List (List ℚ)) : ℚ :=
  logs.foldl (fun m log => if log.isEmpty then m else min m (pymin log)) 0

/-- The `final_es` accumulation of `draw_stats` (lines 113-119):
`for i, log in enumerate(logs): if log and i != len(logs)-1:
final_es.append(min(log))` — per-run minima of the non-empty finished runs. -/
def final_es (logs : List (List ℚ)) : List ℚ :=
  ((logs.enum.filter (fun p => !p.2.isEmpty && p.1 != logs.length - 1)).map
    (fun p => pymin p.2))

/-- `np.mean`: the arithmetic mean, sum over length. -/
def npMean (xs : List ℚ) : ℚ := xs.sum / xs.length

/-- The square of `np.std(xs)` (default `ddof=0`): `np.std` returns the
square root of the mean squared deviation from the mean.  The square is
tracked so the model stays in exact rational arithmetic; the displayed value
is its (nonnegative) square root. -/
def npStdSq (xs : List ℚ) : ℚ :=
  npMean (xs.map (fun x => (x - npMean xs) ^ 2))

/-- What the stats panel shows.  In `stats nruns mine mean var`, the two
`Sum` fields are either the literal string printed in place of a number, or
the number itself (for `var`, the square of the displayed `np.std` value). -/
inductive StatsPanel where
  | noData
  | stats (nruns : ℕ) (mine : ℚ) (mean : Sum String ℚ) (var : Sum String ℚ)
deriving DecidableEq

/-- `CURSESDisplay.draw_stats` (`visualize_convergence.py`, lines 109-128):
with a falsy `self.data.logs` (still `None`, or empty) it prints
"No data yet!"; otherwise it formats `len(logs)-1`, the seeded minimum, and
`np.mean(final_es)` / `np.std(final_es)` guarded by `len(final_es) > 1`,
falling back to the literal string "Insufficent data" (spelled exactly as in
the source). -/
def draw_stats (logs : List (List ℚ)) : StatsPanel :=
  if logs.isEmpty then StatsPanel.noData
  else
    StatsPanel.stats (logs.length - 1) (statsMin logs)
      (if 1 < (final_es logs).length then Sum.inr (npMean (final_es logs))
       else Sum.inl "Insufficent data")
      (if 1 < (final_es logs).length then Sum.inr (npStdSq (final_es logs))
       else Sum.inl "Insufficent data")

/-- The y-axis bounds handed to `p.ylim` by `draw_graphs`
(`visualize_convergence.py`, lines 148-159): seeded with `(-1.7, -1.6)`,
then, for every run with at least one sample,
`min_ = min(min_, min(log))` and `max_ = max(max_, max(log))`. -/
def yBounds (logs : List (List ℚ)) : ℚ × ℚ :=
  logs.foldl
    (fun mm log =>
      if log.length < 1 then mm
      else (min mm.1 (pymin log), max mm.2 (pymax log)))
    (-17/10, -16/10)

/-- Renderer state touched by the key handler: `self.running` and
`self.numerical_markers`. -/
structure RendererState where
  running : Bool
  numerical_markers : Bool
deriving DecidableEq

/-- Outcome of one iteration of the `while self.running` loop in `_main`:
the state afterwards, whether the chart/stats redraw of this iteration ran
(`drew`), and whether the loop was exited (`exited`). -/
structure IterResult where
  state : RendererState
  drew : Bool
  exited : Bool
deriving DecidableEq

/-- One iteration of the renderer loop (`visualize_convergence.py`,
lines 199-227), keyed on the `stdscr.getch()` result (`none` = no key
pending, `getch` returned `-1`).  `ord('q')` hits a bare `break`: the loop is
left immediately, before `draw_graphs`/`draw_stats` run, and `self.running`
is not modified.  `ord('n')` toggles `self.numerical_markers` and the
iteration continues.  The `elif cmd == ord('c') and False:` branch is dead
(`and False`), so `'c'` behaves like any other key. -/
def loopIter (s : RendererState) (cmd : Option Char) : IterResult :=
  if cmd = some 'q' then IterResult.mk s false true
  else if cmd = some 'n' then
    IterResult.mk (RendererState.mk s.running (!s.numerical_markers)) true false
  else IterResult.mk s true false

end CURSESDisplay

/-- Spec-side arithmetic mean of the per-run minima, following the spec's
words ("the reported mean equals the arithmetic mean of m_i"). -/
def meanSpec (xs : List ℚ) : ℚ := xs.sum / xs.length

/-- Spec-side population variance (the square of the population standard
deviation) of the per-run minima. -/
def popVarSpec (xs : List ℚ) : ℚ :=
  (xs.map (fun x => (x - meanSpec xs) ^ 2)).sum / xs.length

/-- Outcome of the `__main__` block: either `sys.exit(code)` after printing
`msg`, or both worker threads constructed and started on file `fname`. -/
inductive MainResult where
  | exit (code : ℕ) (msg : String)
  | started (fname : String)
deriving DecidableEq

/-- The `__main__` block (`visualize_convergence.py`, lines 259-268).
`ckPath` stands for the value `get_fname()` would return (an external
job-management lookup, out of scope); it is only consulted when no positional
argument is given and only after the tty check passed. -/
def mainEntry (stdinIsTTY : Bool) (argv1 : Option String) (ckPath : String) :
    MainResult :=
  if !stdinIsTTY then MainResult.exit 1 "please run interactively."
  else MainResult.started (argv1.getD ckPath)

/-! ## Helper lemmas -/

theorem foldl_min_swap (l : List ℚ) : ∀ a b : ℚ,
    l.foldl min (min a b) = min a (l.foldl min b) := by
  induction l with
  | nil => intro a b; rfl
  | cons x t ih =>
    intro a b
    rw [List.foldl_cons, List.foldl_cons, min_assoc, ih]

theorem foldl_max_swap (l : List ℚ) : ∀ a b : ℚ,
    l.foldl max (max a b) = max a (l.foldl max b) := by
  induction l with
  | nil => intro a b; rfl
  | cons x t ih =>
    intro a b
    rw [List.foldl_cons, List.foldl_cons, max_assoc, ih]

theorem pymin_append (xs ys : List ℚ) (hx : xs ≠ []) (hy : ys ≠ []) :
    pymin (xs ++ ys) = min (pymin xs) (pymin ys) := by
  cases xs with
  | nil => exact absurd rfl hx
  | cons x xt =>
    cases ys with
    | nil => exact absurd rfl hy
    | cons y yt =>
      show (xt ++ y :: yt).foldl min x = min (xt.foldl min x) (yt.foldl min y)
      rw [List.foldl_append, List.foldl_cons, foldl_min_swap]

theorem pymax_append (xs ys : List ℚ) (hx : xs ≠ []) (hy : ys ≠ []) :
    pymax (xs ++ ys) = max (pymax xs) (pymax ys) := by
  cases xs with
  | nil => exact absurd rfl hx
  | cons x xt =>
    cases ys with
    | nil => exact absurd rfl hy
    | cons y yt =>
      show (xt ++ y :: yt).foldl max x = max (xt.foldl max x) (yt.foldl max y)
      rw [List.foldl_append, List.foldl_cons, foldl_max_swap]

theorem statsFold_char (logs : List (List ℚ)) : ∀ a : ℚ,
    logs.foldl (fun m log => if log.isEmpty then m else min m (pymin log)) a
      = if logs.flatten.isEmpty then a else min a (pymin logs.flatten) := by
  induction logs with
  | nil => intro a; rfl
  | cons log tl ih =>
    intro a
    rw [List.foldl_cons]
    cases log with
    | nil => simpa using ih a
    | cons x xt =>
      rw [ih]
      by_cases hj : tl.flatten.isEmpty
      · have hj' : tl.flatten = [] := by simpa using hj
        simp [hj']
      · have hj' : tl.flatten ≠ [] := by simpa using hj
        have hxx : pymin ((x :: xt) ++ tl.flatten)
            = min (pymin (x :: xt)) (pymin tl.flatten) :=
          pymin_append _ _ (by simp) hj'
        simp only [List.cons_append] at hxx
        simp [hj, hxx, min_assoc]

theorem yFold_char (logs : List (List ℚ)) : ∀ p : ℚ × ℚ,
    logs.foldl
        (fun mm log =>
          if log.length < 1 then mm
          else (min mm.1 (pymin log), max mm.2 (pymax log))) p
      = if logs.flatten.isEmpty then p
        else (min p.1 (pymin logs.flatten), max p.2 (pymax logs.flatten)) := by
  induction logs with
  | nil => intro p; rfl
  | cons log tl ih =>
    intro p
    rw [List.foldl_cons]
    cases log with
    | nil => simpa using ih p
    | cons x xt =>
      rw [ih]
      by_cases hj : tl.flatten.isEmpty
      · have hj' : tl.flatten = [] := by simpa using hj
        simp [hj']
      · have hj' : tl.flatten ≠ [] := by simpa using hj
        have hxx : pymin ((x :: xt) ++ tl.flatten)
            = min (pymin (x :: xt)) (pymin tl.flatten) :=
          pymin_append _ _ (by simp) hj'
        have hyy : pymax ((x :: xt) ++ tl.flatten)
            = max (pymax (x :: xt)) (pymax tl.flatten) :=
          pymax_append _ _ (by simp) hj'
        simp only [List.cons_append] at hxx hyy
        simp [hj, hxx, hyy, min_assoc, max_assoc]

theorem splitRunsSpec_ne_nil (lines : List DataSource.Line) :
    splitRunsSpec lines ≠ [] := by
  induction lines with
  | nil => simp [splitRunsSpec]
  | cons l tl ih =>
    cases l with
    | obs e => simp [splitRunsSpec]
    | badObs => simpa [splitRunsSpec] using ih
    | marker => simp [splitRunsSpec]
    | other => simpa [splitRunsSpec] using ih

theorem splitRunsSpec_length (lines : List DataSource.Line) :
    (splitRunsSpec lines).length = lines.count DataSource.Line.marker + 1 := by
  induction lines with
  | nil => rfl
  | cons l tl ih =>
    cases l with
    | obs e =>
      have h1 : splitRunsSpec tl ≠ [] := splitRunsSpec_ne_nil tl
      have h2 : 0 < (splitRunsSpec tl).length := List.length_pos.mpr h1
      simp only [splitRunsSpec, List.length_cons, List.length_tail,
        List.count_cons]
      rw [ih] at h2 ⊢
      simp
    | badObs =>
      simp only [splitRunsSpec, List.count_cons]
      rw [ih]
      simp
    | marker =>
      simp only [splitRunsSpec, List.length_cons, List.count_cons]
      rw [ih]
      simp
    | other =>
      simp only [splitRunsSpec, List.count_cons]
      rw [ih]
      simp

theorem appendLast_ne_nil (logs : List (List ℚ)) (e : ℚ) (h : logs ≠ []) :
    DataSource.appendLast logs e ≠ [] := by
  cases logs with
  | nil => exact absurd rfl h
  | cons l tl =>
    cases tl with
    | nil => simp [DataSource.appendLast]
    | cons l2 ls => simp [DataSource.appendLast]

theorem mergeRuns_cons_cons (l x : List ℚ) (xs rs : List (List ℚ)) :
    mergeRuns (l :: x :: xs) rs = l :: mergeRuns (x :: xs) rs := rfl

theorem mergeRuns_single_empty (logs : List (List ℚ)) (h : logs ≠ []) :
    mergeRuns logs [[]] = logs := by
  induction logs with
  | nil => exact absurd rfl h
  | cons l tl ih =>
    cases tl with
    | nil => simp [mergeRuns]
    | cons l2 ls =>
      rw [mergeRuns_cons_cons, ih (List.cons_ne_nil l2 ls)]

theorem mergeRuns_nil_head (rs : List (List ℚ)) (h : rs ≠ []) :
    mergeRuns [[]] rs = rs := by
  cases rs with
  | nil => exact absurd rfl h
  | cons r rt => simp [mergeRuns]

theorem mergeRuns_appendLast (e : ℚ) (r : List ℚ) (rs : List (List ℚ)) :
    ∀ logs : List (List ℚ), logs ≠ [] →
    mergeRuns (DataSource.appendLast logs e) (r :: rs)
      = mergeRuns logs ((e :: r) :: rs) := by
  intro logs
  induction logs with
  | nil => intro h; exact absurd rfl h
  | cons l tl ih =>
    intro _
    cases tl with
    | nil => simp [DataSource.appendLast, mergeRuns]
    | cons l2 ls =>
      have hne : DataSource.appendLast (l2 :: ls) e ≠ [] :=
        appendLast_ne_nil (l2 :: ls) e (List.cons_ne_nil l2 ls)
      cases hX : DataSource.appendLast (l2 :: ls) e with
      | nil => exact absurd hX hne
      | cons x xs =>
        show mergeRuns (l :: DataSource.appendLast (l2 :: ls) e) (r :: rs)
          = l :: mergeRuns (l2 :: ls) ((e :: r) :: rs)
        rw [hX, mergeRuns_cons_cons, ← hX, ih (List.cons_ne_nil l2 ls)]

theorem mergeRuns_concat_empty (r : List ℚ) (rs : List (List ℚ)) :
    ∀ logs : List (List ℚ),
    mergeRuns (logs ++ [[]]) (r :: rs) = logs ++ r :: rs := by
  intro logs
  induction logs with
  | nil => simp [mergeRuns]
  | cons l tl ih =>
    cases tl with
    | nil => simp [mergeRuns]
    | cons l2 ls =>
      show mergeRuns (l :: ((l2 :: ls) ++ [[]])) (r :: rs)
        = l :: ((l2 :: ls) ++ r :: rs)
      rw [show (l2 :: ls) ++ [[]] = l2 :: (ls ++ [[]]) from rfl,
        mergeRuns_cons_cons, ← show (l2 :: ls) ++ [[]] = l2 :: (ls ++ [[]]) from rfl,
        ih]

theorem mergeRuns_empty_head (rs : List (List ℚ)) :
    ∀ logs : List (List ℚ), logs ≠ [] →
    mergeRuns logs ([] :: rs) = logs ++ rs := by
  intro logs
  induction logs with
  | nil => intro h; exact absurd rfl h
  | cons l tl ih =>
    intro _
    cases tl with
    | nil => simp [mergeRuns]
    | cons l2 ls =>
      rw [mergeRuns_cons_cons, ih (List.cons_ne_nil l2 ls)]
      rfl

theorem processLines_eq_mergeRuns (lines : List DataSource.Line) :
    ∀ logs : List (List ℚ), logs ≠ [] → DataSource.Line.badObs ∉ lines →
    DataSource.processLines logs lines
      = Except.ok (mergeRuns logs (splitRunsSpec lines)) := by
  induction lines with
  | nil =>
    intro logs h _
    show Except.ok logs = Except.ok (mergeRuns logs [[]])
    rw [mergeRuns_single_empty logs h]
  | cons l tl ih =>
    intro logs h hb
    have hbtl : DataSource.Line.badObs ∉ tl := fun m => hb (List.mem_cons_of_mem _ m)
    cases l with
    | obs e =>
      show DataSource.processLines (DataSource.appendLast logs e) tl
        = Except.ok (mergeRuns logs (splitRunsSpec (DataSource.Line.obs e :: tl)))
      rw [ih _ (appendLast_ne_nil logs e h) hbtl]
      obtain ⟨r, rs, hr⟩ : ∃ r rs, splitRunsSpec tl = r :: rs := by
        cases hsp : splitRunsSpec tl with
        | nil => exact absurd hsp (splitRunsSpec_ne_nil tl)
        | cons r rs => exact ⟨r, rs, rfl⟩
      show Except.ok (mergeRuns (DataSource.appendLast logs e) (splitRunsSpec tl))
        = Except.ok (mergeRuns logs
            ((e :: (splitRunsSpec tl).headI) :: (splitRunsSpec tl).tail))
      rw [hr]
      show Except.ok (mergeRuns (DataSource.appendLast logs e) (r :: rs))
        = Except.ok (mergeRuns logs ((e :: r) :: rs))
      rw [mergeRuns_appendLast e r rs logs h]
    | badObs => exact absurd (List.mem_cons_self _ _) hb
    | marker =>
      show DataSource.processLines (logs ++ [[]]) tl
        = Except.ok (mergeRuns logs ([] :: splitRunsSpec tl))
      rw [ih _ (by simp) hbtl]
      obtain ⟨r, rs, hr⟩ : ∃ r rs, splitRunsSpec tl = r :: rs := by
        cases hsp : splitRunsSpec tl with
        | nil => exact absurd hsp (splitRunsSpec_ne_nil tl)
        | cons r rs => exact ⟨r, rs, rfl⟩
      rw [hr, mergeRuns_concat_empty, mergeRuns_empty_head _ logs h]
    | other =>
      show DataSource.processLines logs tl
        = Except.ok (mergeRuns logs (splitRunsSpec tl))
      exact ih logs h hbtl

theorem flatten_appendLast (e : ℚ) :
    ∀ lg : List (List ℚ), lg ≠ [] →
    (DataSource.appendLast lg e).flatten = lg.flatten ++ [e] := by
  intro lg
  induction lg with
  | nil => intro h; exact absurd rfl h
  | cons l tl ih =>
    intro _
    cases tl with
    | nil => simp [DataSource.appendLast]
    | cons l2 ls =>
      show (l :: DataSource.appendLast (l2 :: ls) e).flatten
        = (l :: l2 :: ls).flatten ++ [e]
      rw [List.flatten_cons, ih (List.cons_ne_nil l2 ls)]
      simp [List.append_assoc]

theorem filter_enumFrom_map (xs : List (List ℚ)) : ∀ k : ℕ,
    ((List.enumFrom k xs).filter (fun p => !p.2.isEmpty)).map (fun p => pymin p.2)
      = (xs.filter (fun l => !l.isEmpty)).map pymin := by
  induction xs with
  | nil => intro k; rfl
  | cons x t ih =>
    intro k
    show (((k, x) :: List.enumFrom (k + 1) t).filter
        (fun p => !p.2.isEmpty)).map (fun p => pymin p.2) = _
    rw [List.filter_cons, List.filter_cons]
    by_cases hx : x.isEmpty
    · simp only [hx]
      simpa using ih (k + 1)
    · simp only [Bool.not_eq_true] at hx
      simp only [hx]
      simp only [Bool.not_false, if_true, List.map_cons]
      rw [ih (k + 1)]

theorem filter_enumFrom_concat (x : List ℚ) :
    ∀ (xs : List (List ℚ)) (k n : ℕ), n = k + xs.length →
    (List.enumFrom k (xs ++ [x])).filter (fun p => !p.2.isEmpty && p.1 != n)
      = (List.enumFrom k xs).filter (fun p => !p.2.isEmpty) := by
  intro xs
  induction xs with
  | nil =>
    intro k n hn
    simp only [List.length_nil, Nat.add_zero] at hn
    subst hn
    show [(n, x)].filter (fun p => !p.2.isEmpty && p.1 != n) = []
    rw [List.filter_cons]
    simp
  | cons y t ih =>
    intro k n hn
    subst hn
    show ((k, y) :: List.enumFrom (k + 1) (t ++ [x])).filter
        (fun p => !p.2.isEmpty && p.1 != k + (y :: t).length)
      = ((k, y) :: List.enumFrom (k + 1) t).filter (fun p => !p.2.isEmpty)
    rw [List.filter_cons, List.filter_cons]
    have hk : (k != k + (y :: t).length) = true := by
      simp only [List.length_cons, bne_iff_ne, ne_eq]
      omega
    have harith : k + (y :: t).length = (k + 1) + t.length := by
      simp only [List.length_cons]
      omega
    rw [harith] at hk ⊢
    rw [ih (k + 1) ((k + 1) + t.length) rfl]
    simp only [hk, Bool.and_true]

theorem final_es_eq (logs : List (List ℚ)) :
    CURSESDisplay.final_es logs
      = (logs.dropLast.filter (fun l => !l.isEmpty)).map pymin := by
  rcases logs.eq_nil_or_concat' with h | ⟨xs, x, h⟩
  · subst h; rfl
  · subst h
    show ((List.enumFrom 0 (xs ++ [x])).filter
        (fun p => !p.2.isEmpty && p.1 != (xs ++ [x]).length - 1)).map
        (fun p => pymin p.2) = _
    have hn : (xs ++ [x]).length - 1 = 0 + xs.length := by
      simp
    rw [hn, List.dropLast_concat,
      filter_enumFrom_concat x xs 0 (0 + xs.length) rfl,
      filter_enumFrom_map xs 0]

theorem step_samples_mono (t t2 : DataSource.TailerState) (o : DataSource.Obs)
    (ho : o ≠ DataSource.Obs.openSuccess)
    (hstep : DataSource.step t o = Except.ok t2) :
    DataSource.samples t2 = DataSource.samples t ∨
    ∃ e : ℚ, DataSource.samples t2 = DataSource.samples t ++ [e] := by
  obtain ⟨fo, lgo⟩ := t
  obtain ⟨fo2, lgo2⟩ := t2
  cases fo
  · cases o with
    | unlinked =>
      simp only [DataSource.step, Bool.false_eq_true, if_false,
        Except.ok.injEq, DataSource.TailerState.mk.injEq] at hstep
      obtain ⟨h1, h2⟩ := hstep
      subst h1; subst h2
      left; rfl
    | eof =>
      simp only [DataSource.step, Bool.false_eq_true, if_false,
        Except.ok.injEq, DataSource.TailerState.mk.injEq] at hstep
      obtain ⟨h1, h2⟩ := hstep
      subst h1; subst h2
      left; rfl
    | line l =>
      simp only [DataSource.step, Bool.false_eq_true, if_false,
        Except.ok.injEq, DataSource.TailerState.mk.injEq] at hstep
      obtain ⟨h1, h2⟩ := hstep
      subst h1; subst h2
      left; rfl
    | openSuccess => exact absurd rfl ho
    | openFailure =>
      simp only [DataSource.step, Bool.false_eq_true, if_false,
        Except.ok.injEq, DataSource.TailerState.mk.injEq] at hstep
      obtain ⟨h1, h2⟩ := hstep
      subst h1; subst h2
      left; rfl
  · cases o with
    | unlinked =>
      simp only [DataSource.step, if_true, Except.ok.injEq,
        DataSource.TailerState.mk.injEq] at hstep
      obtain ⟨h1, h2⟩ := hstep
      subst h1; subst h2
      left; rfl
    | eof =>
      simp only [DataSource.step, if_true, Except.ok.injEq,
        DataSource.TailerState.mk.injEq] at hstep
      obtain ⟨h1, h2⟩ := hstep
      subst h1; subst h2
      left; rfl
    | line l =>
      cases lgo with
      | none => simp [DataSource.step] at hstep
      | some lg =>
        cases l with
        | obs e =>
          simp only [DataSource.step, if_true, DataSource.processLine,
            Except.map, Except.ok.injEq, DataSource.TailerState.mk.injEq] at hstep
          obtain ⟨h1, h2⟩ := hstep
          subst h1; subst h2
          cases lg with
          | nil => left; rfl
          | cons r rt =>
            right
            exact ⟨e, flatten_appendLast e (r :: rt) (List.cons_ne_nil r rt)⟩
        | badObs =>
          simp [DataSource.step, DataSource.processLine, Except.map] at hstep
        | marker =>
          simp only [DataSource.step, if_true, DataSource.processLine,
            Except.map, Except.ok.injEq, DataSource.TailerState.mk.injEq] at hstep
          obtain ⟨h1, h2⟩ := hstep
          subst h1; subst h2
          left
          simp [DataSource.samples]
        | other =>
          simp only [DataSource.step, if_true, DataSource.processLine,
            Except.map, Except.ok.injEq, DataSource.TailerState.mk.injEq] at hstep
          obtain ⟨h1, h2⟩ := hstep
          subst h1; subst h2
          left; rfl
    | openSuccess => exact absurd rfl ho
    | openFailure =>
      simp only [DataSource.step, if_true, Except.ok.injEq,
        DataSource.TailerState.mk.injEq] at hstep
      obtain ⟨h1, h2⟩ := hstep
      subst h1; subst h2
      left; rfl

/-! ## Claim theorems -/

/-- C1 (run segmentation): after a successful open (run list `[[]]`), a
sequence of well-formed lines containing `k` marker lines yields exactly
`k + 1` runs, each holding, in order, the energies of the observation lines
between its opening marker (or the start of input) and the next marker (or
the end of input) — i.e. the tailer's `processLines` realises the spec-side
segmentation `splitRunsSpec`, whose length is the marker count plus one.
Lines of any other kind leave the run list unchanged (they are absorbed by
the segmentation without adding runs or values). -/
theorem run_segmentation (lines : List DataSource.Line)
    (h : DataSource.Line.badObs ∉ lines) :
    DataSource.processLines [[]] lines = Except.ok (splitRunsSpec lines) ∧
    (splitRunsSpec lines).length = lines.count DataSource.Line.marker + 1 := by
  refine ⟨?_, splitRunsSpec_length lines⟩
  rw [processLines_eq_mergeRuns lines [[]] (by simp) h,
    mergeRuns_nil_head _ (splitRunsSpec_ne_nil lines)]

/-- Witness for C1, on the shape of the spec's end-to-end example
(`#`, observation, observation, `#`, observation): the result is three runs —
the implicit initial empty run, then `[-1, -2]`, then `[-3]`. -/
theorem run_segmentation_witness :
    DataSource.Line.badObs ∉
      [DataSource.Line.marker, DataSource.Line.obs (-1), DataSource.Line.obs (-2),
        DataSource.Line.marker, DataSource.Line.obs (-3)] ∧
    DataSource.processLines [[]]
        [DataSource.Line.marker, DataSource.Line.obs (-1), DataSource.Line.obs (-2),
          DataSource.Line.marker, DataSource.Line.obs (-3)]
      = Except.ok [[], [-1, -2], [-3]] ∧
    splitRunsSpec
        [DataSource.Line.marker, DataSource.Line.obs (-1), DataSource.Line.obs (-2),
          DataSource.Line.marker, DataSource.Line.obs (-3)]
      = [[], [-1, -2], [-3]] :=
  ⟨by decide,
    by
      rw [(run_segmentation _ (by decide)).1]
      congr 1,
    by decide⟩

/-- C4 (malformed-line robustness, claim vs. code): a `'\x7b'`-prefixed line
that is not a well-formed mapping with a numeric `energy` value makes
`literal_eval` / the key lookup raise; `DataSource.run` has no handler around
it, so the exception escapes the loop body and the tailer's thread of control
terminates (`Except.error`), contradicting the claim's skip-and-continue
policy. -/
theorem malformed_line_kills_tailer (lg : List (List ℚ)) :
    DataSource.processLine lg DataSource.Line.badObs = Except.error () ∧
    DataSource.step (DataSource.TailerState.mk true (some lg))
        (DataSource.Obs.line DataSource.Line.badObs)
      = Except.error () :=
  ⟨rfl, rfl⟩

/-- C5 (file-replacement reset): with an open handle and accumulated run list
`R`, the unlink check drops the handle but keeps `R`; while reopening fails
nothing changes; the next successful reopen makes the run list exactly
`[[]]` — and in general a successful open from the no-handle state always
resets to a single empty run, while no other observation ever discards
accumulated samples (so a wholesale reset happens exactly at a fresh open). -/
theorem file_replacement_reset (R : List (List ℚ)) (s : DataSource.TailerState)
    (h1 : s.fileOpen = true) (h2 : s.logs = some R) :
    DataSource.step s DataSource.Obs.unlinked
      = Except.ok (DataSource.TailerState.mk false (some R)) ∧
    DataSource.step (DataSource.TailerState.mk false (some R))
        DataSource.Obs.openFailure
      = Except.ok (DataSource.TailerState.mk false (some R)) ∧
    DataSource.step (DataSource.TailerState.mk false (some R))
        DataSource.Obs.openSuccess
      = Except.ok (DataSource.TailerState.mk true (some [[]])) ∧
    (∀ t : DataSource.TailerState, t.fileOpen = false →
      DataSource.step t DataSource.Obs.openSuccess
        = Except.ok (DataSource.TailerState.mk true (some [[]]))) ∧
    (∀ (t t2 : DataSource.TailerState) (o : DataSource.Obs),
      o ≠ DataSource.Obs.openSuccess → DataSource.step t o = Except.ok t2 →
      DataSource.samples t2 = DataSource.samples t ∨
      ∃ e : ℚ, DataSource.samples t2 = DataSource.samples t ++ [e]) := by
  obtain ⟨fo, lgo⟩ := s
  cases h1
  cases h2
  refine ⟨rfl, rfl, rfl, ?_, step_samples_mono⟩
  intro t ht
  obtain ⟨fo, lgo⟩ := t
  cases ht
  rfl

/-- Witness for C5 at the concrete state holding one finished sample `5`. -/
theorem file_replacement_reset_witness :
    (DataSource.TailerState.mk true (some [[(5:ℚ)]])).fileOpen = true ∧
    (DataSource.TailerState.mk true (some [[(5:ℚ)]])).logs = some [[(5:ℚ)]] ∧
    DataSource.step (DataSource.TailerState.mk true (some [[(5:ℚ)]]))
        DataSource.Obs.unlinked
      = Except.ok (DataSource.TailerState.mk false (some [[(5:ℚ)]])) :=
  ⟨rfl, rfl,
    (file_replacement_reset [[(5:ℚ)]]
      (DataSource.TailerState.mk true (some [[(5:ℚ)]])) rfl rfl).1⟩

/-- C7 (idempotent no-op reads): with an open, still-linked handle an
empty `readline()` result leaves the state — in particular the run list —
unchanged, and the iteration sleeps exactly one 100 ms pause interval. -/
theorem noop_read_idempotent (s : DataSource.TailerState)
    (h : s.fileOpen = true) :
    DataSource.step s DataSource.Obs.eof = Except.ok s ∧
    DataSource.iterSleepMs s DataSource.Obs.eof = 100 := by
  obtain ⟨fo, lgo⟩ := s
  cases h
  exact ⟨rfl, rfl⟩

/-- Witness for C7 at the freshly opened state. -/
theorem noop_read_idempotent_witness :
    (DataSource.TailerState.mk true (some ([[]] : List (List ℚ)))).fileOpen
        = true ∧
    DataSource.step (DataSource.TailerState.mk true (some ([[]] : List (List ℚ))))
        DataSource.Obs.eof
      = Except.ok (DataSource.TailerState.mk true (some ([[]] : List (List ℚ)))) :=
  ⟨rfl,
    (noop_read_idempotent
      (DataSource.TailerState.mk true (some ([[]] : List (List ℚ)))) rfl).1⟩

/-- C9 (non-interactive startup refusal): when stdin is not a tty,
`__main__` prints "please run interactively." and exits with status 1; no
`started` outcome (construction and start of the two workers) is possible,
whatever the command line or the external path lookup would have yielded. -/
theorem nontty_refusal (argv1 : Option String) (ckPath : String) :
    mainEntry false argv1 ckPath
      = MainResult.exit 1 "please run interactively." ∧
    ∀ f : String, mainEntry false argv1 ckPath ≠ MainResult.started f := by
  refine ⟨rfl, ?_⟩
  intro f hcontra
  simp [mainEntry] at hcontra

/-- C10 (zero-seeded minimum): the minimum shown by the stats panel is the
`min_` accumulator seeded with `0`, so it is never positive, and whenever any
sample exists it equals `min 0 (minimum over all samples of all runs)`; the
panel indeed displays `statsMin` as its `mine` field for any non-empty run
list. -/
theorem min_seeded_zero (logs : List (List ℚ)) :
    CURSESDisplay.statsMin logs ≤ 0 ∧
    (logs.flatten ≠ [] →
      CURSESDisplay.statsMin logs = min 0 (pymin logs.flatten)) ∧
    (logs ≠ [] → ∃ m v, CURSESDisplay.draw_stats logs
      = CURSESDisplay.StatsPanel.stats (logs.length - 1)
          (CURSESDisplay.statsMin logs) m v) := by
  have hchar : CURSESDisplay.statsMin logs
      = if logs.flatten.isEmpty then 0 else min 0 (pymin logs.flatten) :=
    statsFold_char logs 0
  refine ⟨?_, ?_, ?_⟩
  · rw [hchar]
    by_cases hj : logs.flatten.isEmpty
    · simp [hj]
    · simp only [hj, if_false, Bool.false_eq_true]
      exact min_le_left 0 _
  · intro hne
    rw [hchar, if_neg (by simp [hne])]
  · intro hne
    refine ⟨(if 1 < (CURSESDisplay.final_es logs).length
        then Sum.inr (CURSESDisplay.npMean (CURSESDisplay.final_es logs))
        else Sum.inl "Insufficent data"),
      (if 1 < (CURSESDisplay.final_es logs).length
        then Sum.inr (CURSESDisplay.npStdSq (CURSESDisplay.final_es logs))
        else Sum.inl "Insufficent data"), ?_⟩
    unfold CURSESDisplay.draw_stats
    rw [if_neg (by simp [hne])]

/-- Witness for C10: one run holding the single positive sample `1`; the
panel's minimum is `min 0 1 = 0`. -/
theorem min_seeded_zero_witness :
    List.flatten [[(1:ℚ)]] ≠ [] ∧
    CURSESDisplay.statsMin [[(1:ℚ)]] = min 0 (pymin (List.flatten [[(1:ℚ)]])) :=
  ⟨by decide, (min_seeded_zero [[(1:ℚ)]]).2.1 (by decide)⟩

/-- C2 counterexample: with the single run `[1]` (one positive sample), the
panel reports `0`, not the true minimum `1` — the claim "the reported
minimum equals the minimum over all samples" fails at this input. -/
theorem global_min_counterexample :
    CURSESDisplay.statsMin [[(1:ℚ)]] = 0 ∧
    pymin (List.flatten [[(1:ℚ)]]) = 1 ∧
    CURSESDisplay.statsMin [[(1:ℚ)]] ≠ pymin (List.flatten [[(1:ℚ)]]) := by
  refine ⟨by decide, by decide, by decide⟩

/-- C2 amended: the reported minimum equals the minimum over all samples in
all runs (in-progress run included) whenever that minimum is not positive;
the accumulator's `0` seed caps the report at `0` otherwise. -/
theorem global_min_amended (logs : List (List ℚ)) (h1 : logs.flatten ≠ [])
    (h2 : pymin logs.flatten ≤ 0) :
    CURSESDisplay.statsMin logs = pymin logs.flatten := by
  have hchar : CURSESDisplay.statsMin logs
      = if logs.flatten.isEmpty then 0 else min 0 (pymin logs.flatten) :=
    statsFold_char logs 0
  rw [hchar, if_neg (by simp [h1]), min_eq_right h2]

/-- Witness for the amended C2 at the run list `[[-1]]`. -/
theorem global_min_amended_witness :
    List.flatten [[(-1:ℚ)]] ≠ [] ∧ pymin (List.flatten [[(-1:ℚ)]]) ≤ 0 ∧
    CURSESDisplay.statsMin [[(-1:ℚ)]] = pymin (List.flatten [[(-1:ℚ)]]) :=
  ⟨by decide, by decide, global_min_amended [[(-1:ℚ)]] (by decide) (by decide)⟩

/-- C8 counterexample: with the single sample `-1` the chart bounds are
`(-1.7, -1)` — the seed `-1.7` survives into the lower bound although data
exists, so the bounds are not the data min/max. -/
theorem ylim_counterexample :
    CURSESDisplay.yBounds [[(-1:ℚ)]] = ((-17)/10, -1) ∧
    CURSESDisplay.yBounds [[(-1:ℚ)]]
      ≠ (pymin (List.flatten [[(-1:ℚ)]]), pymax (List.flatten [[(-1:ℚ)]])) := by
  constructor
  · norm_num [CURSESDisplay.yBounds, pymin, pymax]
  · norm_num [CURSESDisplay.yBounds, pymin, pymax, Prod.ext_iff]

/-- C8 amended: the y-axis bounds are the default `(-1.7, -1.6)` when no
sample exists, and otherwise `(min(-1.7, data min), max(-1.6, data max))` —
the defaults always participate, so the bounds equal the data min/max only
when the data min is at most `-1.7` and the data max at least `-1.6`. -/
theorem ylim_amended (logs : List (List ℚ)) :
    CURSESDisplay.yBounds logs
      = if logs.flatten.isEmpty then ((-17)/10, (-16)/10)
        else (min ((-17)/10) (pymin logs.flatten),
          max ((-16)/10) (pymax logs.flatten)) :=
  yFold_char logs ((-17)/10, (-16)/10)

/-- C6 counterexample: on `'q'` the loop takes a bare `break`: the renderer's
liveness flag `running` stays `true` (it is not cleared) and the iteration's
redraw is skipped (the loop does not finish that iteration). -/
theorem quit_key_counterexample :
    (CURSESDisplay.loopIter (CURSESDisplay.RendererState.mk true true)
        (some 'q')).state.running = true ∧
    (CURSESDisplay.loopIter (CURSESDisplay.RendererState.mk true true)
        (some 'q')).drew = false ∧
    (CURSESDisplay.loopIter (CURSESDisplay.RendererState.mk true true)
        (some 'q')).exited = true := by
  refine ⟨by decide, by decide, by decide⟩

/-- C6 amended: `'q'` exits the loop immediately — before that iteration's
chart/stats redraw — leaving the liveness flag untouched; `'n'` toggles the
numerical-marker option (affecting only future draws); every other key
(including the dead `'c'` branch) leaves the renderer state unchanged; no
key ever changes the `running` flag. -/
theorem quit_toggle_amended (s : CURSESDisplay.RendererState)
    (cmd : Option Char) :
    ((CURSESDisplay.loopIter s cmd).exited = true ↔ cmd = some 'q') ∧
    ((CURSESDisplay.loopIter s cmd).drew = true ↔ cmd ≠ some 'q') ∧
    (CURSESDisplay.loopIter s (some 'q')).state = s ∧
    (CURSESDisplay.loopIter s (some 'n')).state
      = CURSESDisplay.RendererState.mk s.running (!s.numerical_markers) ∧
    (cmd ≠ some 'q' → cmd ≠ some 'n' →
      CURSESDisplay.loopIter s cmd = CURSESDisplay.IterResult.mk s true false) ∧
    (CURSESDisplay.loopIter s cmd).state.running = s.running := by
  unfold CURSESDisplay.loopIter
  by_cases hq : cmd = some 'q'
  · simp [hq]
  · by_cases hn : cmd = some 'n'
    · simp [hq, hn]
    · simp [hq, hn]

/-- Witness for the amended C6: an ignored key `'x'` leaves the state
unchanged, completes the redraw, and does not exit. -/
theorem quit_toggle_amended_witness :
    (some 'x' ≠ some 'q') ∧ (some 'x' ≠ some 'n') ∧
    CURSESDisplay.loopIter (CURSESDisplay.RendererState.mk true true) (some 'x')
      = CURSESDisplay.IterResult.mk (CURSESDisplay.RendererState.mk true true)
          true false :=
  ⟨by decide, by decide,
    (quit_toggle_amended (CURSESDisplay.RendererState.mk true true)
        (some 'x')).2.2.2.2.1 (by decide) (by decide)⟩

/-- C3 counterexample: with one finished run and the in-progress run empty
(`n = 1 < 2`), the panel prints the literal string "Insufficent data" — the
source's spelling — which is not the claim's literal "Insufficient data". -/
theorem insufficient_literal_counterexample :
    CURSESDisplay.draw_stats [[(-1:ℚ)], []]
      = CURSESDisplay.StatsPanel.stats 1 (-1)
          (Sum.inl "Insufficent data") (Sum.inl "Insufficent data") ∧
    ("Insufficent data" : String) ≠ "Insufficient data" := by
  refine ⟨by decide, by decide⟩

/-- C3 amended: for a non-empty run list the panel reports the completed-run
count as the run-list length minus one and, writing `m_1...m_n` for the
per-run minima of the non-empty finished runs (`final_es`), reports — when
`n ≥ 2` — the arithmetic mean of the `m_i` and the population standard
deviation of the `m_i` (tracked here by its square, the population
variance), and — when `n < 2` — the literal string "Insufficent data" (as
spelled in the source) for both fields instead of a computed number. -/
theorem stats_correct_amended (logs : List (List ℚ)) (h : logs ≠ []) :
    (1 < (CURSESDisplay.final_es logs).length →
      CURSESDisplay.draw_stats logs
        = CURSESDisplay.StatsPanel.stats (logs.length - 1)
            (CURSESDisplay.statsMin logs)
            (Sum.inr (meanSpec (CURSESDisplay.final_es logs)))
            (Sum.inr (popVarSpec (CURSESDisplay.final_es logs)))) ∧
    ((CURSESDisplay.final_es logs).length ≤ 1 →
      CURSESDisplay.draw_stats logs
        = CURSESDisplay.StatsPanel.stats (logs.length - 1)
            (CURSESDisplay.statsMin logs)
            (Sum.inl "Insufficent data") (Sum.inl "Insufficent data")) ∧
    CURSESDisplay.final_es logs
      = (logs.dropLast.filter (fun l => !l.isEmpty)).map pymin := by
  refine ⟨?_, ?_, final_es_eq logs⟩
  · intro hlen
    unfold CURSESDisplay.draw_stats
    rw [if_neg (by simp [h]), if_pos hlen, if_pos hlen]
    have hm : CURSESDisplay.npMean (CURSESDisplay.final_es logs)
        = meanSpec (CURSESDisplay.final_es logs) := rfl
    have hv : CURSESDisplay.npStdSq (CURSESDisplay.final_es logs)
        = popVarSpec (CURSESDisplay.final_es logs) := by
      unfold CURSESDisplay.npStdSq CURSESDisplay.npMean popVarSpec meanSpec
      rw [List.length_map]
    rw [hm, hv]
  · intro hlen
    unfold CURSESDisplay.draw_stats
    rw [if_neg (by simp [h]), if_neg (by omega), if_neg (by omega)]

/-- Witness for the amended C3 with two finished runs `[-1]`, `[-2]` and an
empty in-progress run: count 2, mean and population variance of `[-1, -2]`. -/
theorem stats_correct_amended_witness :
    ([[(-1:ℚ)], [-2], []] : List (List ℚ)) ≠ [] ∧
    1 < (CURSESDisplay.final_es [[(-1:ℚ)], [-2], []]).length ∧
    CURSESDisplay.draw_stats [[(-1:ℚ)], [-2], []]
      = CURSESDisplay.StatsPanel.stats
          (([[(-1:ℚ)], [-2], []] : List (List ℚ)).length - 1)
          (CURSESDisplay.statsMin [[(-1:ℚ)], [-2], []])
          (Sum.inr (meanSpec (CURSESDisplay.final_es [[(-1:ℚ)], [-2], []])))
          (Sum.inr (popVarSpec (CURSESDisplay.final_es [[(-1:ℚ)], [-2], []]))) :=
  ⟨by decide, by decide,
    (stats_correct_amended [[(-1:ℚ)], [-2], []] (by decide)).1 (by decide)⟩

/-- Witness for C9: a concrete non-tty invocation with no positional
argument exits with status 1 and the explanatory message. -/
theorem nontty_refusal_witness :
    mainEntry false none "vqe_stream.json"
      = MainResult.exit 1 "please run interactively." :=
  (nontty_refusal none "vqe_stream.json").1
